import Mathlib

/-!
Verification of the directory-mirroring core of `copy-to-gdrive.py`.

The embedding models:
* the remote store (`service.files().create().execute()`) as an oracle `Env`
  deciding, per call number, whether the call raises an exception or returns a
  fresh id;
* `create_folder` / `upload_file` as the source's try/except wrappers that turn
  an exception into a `none` result;
* `os.walk(local_directory)` (top-down) as `walkEntries`, yielding per visited
  directory its path relative to the mirror root (as a segment list; `[]`
  stands for the `'.'` of `os.path.relpath`) together with its file names;
* `upload_directory` as the fold over those entries: for a non-root entry the
  inner `for folder_name in folder_names` loop (`resolve`) re-creates the full
  ancestor chain starting from `parent_folder_id`, returning from the whole
  function on the first failure; then the files of the entry are uploaded
  (`uploadFiles`).
The observable behavior is the emitted list of remote calls (`Event`).
-/

/-- A remote folder id: either the caller-supplied `parent_folder_id` or a
fresh id returned by the store for the `k`-th successful folder creation. -/
inductive FolderId where
  | given (s : String)
  | fresh (n : Nat)
deriving DecidableEq, Repr

/-- The remote store oracle: `createOk k` tells whether the `k`-th
`files().create` call for a folder succeeds, `uploadOk j` likewise for the
`j`-th file upload. -/
structure Env where
  createOk : Nat → Bool
  uploadOk : Nat → Bool

/-- One remote call as observed at the store boundary: the requested name or
local path, the parent id passed, and the result (`none` when the call
raised). -/
inductive Event where
  | createFolder (name : String) (parent : Option FolderId) (result : Option FolderId)
  | uploadFile (path : List String) (parent : Option FolderId) (result : Option Nat)
deriving DecidableEq, Repr

/-- Model of `service.files().create(body=folder_metadata, fields='id').execute()`:
either returns the created folder's id or raises (modelled as `Except.error`). -/
def driveCreateFolder (env : Env) (k : Nat) (_name : String)
    (_parent : Option FolderId) : Except String FolderId :=
  if env.createOk k then Except.ok (FolderId.fresh k) else Except.error "HttpError"

/-- Source `create_folder(service, folder_name, parent_folder_id)`: wraps the store
call in try/except, returning the id on success and `None` on any exception. -/
def create_folder (env : Env) (k : Nat) (name : String)
    (parent : Option FolderId) : Option FolderId :=
  match driveCreateFolder env k name parent with
  | Except.ok fid => some fid
  | Except.error _ => none

/-- Model of `service.files().create(body=file_metadata, media_body=media, fields='id').execute()`
for the `j`-th file upload. -/
def driveUploadFile (env : Env) (j : Nat) (_path : List String)
    (_parent : Option FolderId) : Except String Nat :=
  if env.uploadOk j then Except.ok j else Except.error "HttpError"

/-- Source `upload_file(service, file_path, parent_folder_id)`: wraps the store call
in try/except, returning the id on success and `None` on any exception. -/
def upload_file (env : Env) (j : Nat) (path : List String)
    (parent : Option FolderId) : Option Nat :=
  match driveUploadFile env j path parent with
  | Except.ok fid => some fid
  | Except.error _ => none

/-- A directory of the local tree: its name, its immediate file names, and its
immediate subdirectories, in the enumeration order `os.walk` uses. -/
inductive FSTree where
  | node (name : String) (files : List String) (subdirs : List FSTree)

def FSTree.name : FSTree → String
  | .node n _ _ => n

def FSTree.files : FSTree → List String
  | .node _ fs _ => fs

def FSTree.subdirs : FSTree → List FSTree
  | .node _ _ subs => subs

mutual

/-- Source `os.walk` (top-down) restricted to what `upload_directory` consumes: the
pre-order list of (path relative to the mirror root, file names) per visited
directory. -/
def walkAux : List String → FSTree → List (List String × List String)
  | pre, .node _ fs subs => (pre, fs) :: walkForest pre subs

def walkForest : List String → List FSTree → List (List String × List String)
  | _, [] => []
  | pre, .node n fs subs :: ts =>
      walkAux (pre ++ [n]) (.node n fs subs) ++ walkForest pre ts

end

/-- The walk of a whole tree; the root's relative path is `[]` (python `'.'`). -/
def walkEntries (t : FSTree) : List (List String × List String) :=
  walkAux [] t

/-- The inner `for folder_name in folder_names` loop of `upload_directory`:
starting from create-call counter `k` and `current_folder_id = cur`, create
each segment under the previous one.  Returns the new counter, `some cur'` on
full success (`cur'` the resolved id) or `none` when some segment failed (the
python code then returns from `upload_directory`), and the emitted events. -/
def resolve (env : Env) : Nat → Option FolderId → List String →
    Nat × Option (Option FolderId) × List Event
  | k, cur, [] => (k, some cur, [])
  | k, cur, name :: rest =>
    match create_folder env k name cur with
    | none => (k + 1, none, [Event.createFolder name cur none])
    | some fid =>
      let r := resolve env (k + 1) (some fid) rest
      (r.1, r.2.1, Event.createFolder name cur (some fid) :: r.2.2)

/-- The `for file_name in files` loop: upload each file of the directory at
relative path `rel` under the resolved id `cur`; `j` is the upload-call
counter.  Failures are ignored by the caller (the loop continues). -/
def uploadFiles (env : Env) : Nat → Option FolderId → List String →
    List String → Nat × List Event
  | j, _, _, [] => (j, [])
  | j, cur, rel, f :: rest =>
    let res := upload_file env j (rel ++ [f]) cur
    let r := uploadFiles env (j + 1) cur rel rest
    (r.1, Event.uploadFile (rel ++ [f]) cur res :: r.2)

/-- The body of `upload_directory`'s `for root, dirs, files in os.walk(...)`
loop over the walk entries.  `par` is `parent_folder_id`; for the root entry
(relative path `'.'`) no folder is resolved and `current_folder_id` stays
`par`; otherwise the chain is resolved from `par`, and a resolution failure
makes the function return, abandoning all remaining entries. -/
def runEntries (env : Env) : Nat → Nat → Option FolderId →
    List (List String × List String) → List Event
  | _, _, _, [] => []
  | k, j, par, (rel, files) :: rest =>
    if rel = [] then
      let u := uploadFiles env j par rel files
      u.2 ++ runEntries env k u.1 par rest
    else
      let r := resolve env k par rel
      match r.2.1 with
      | none => r.2.2
      | some cur =>
        let u := uploadFiles env j cur rel files
        r.2.2 ++ u.2 ++ runEntries env r.1 u.1 par rest

/-- Source `upload_directory(service, local_directory, parent_folder_id)`: the trace
of remote calls it issues. -/
def upload_directory (env : Env) (tree : FSTree)
    (parent_folder_id : Option FolderId) : List Event :=
  runEntries env 0 0 parent_folder_id (walkEntries tree)

/-- Number of leading segments two paths share. -/
def sharedLen : List String → List String → Nat
  | a :: as, b :: bs => if a = b then sharedLen as bs + 1 else 0
  | _, _ => 0

/-- The Path Decomposer of the source: `os.path.relpath(root, local_directory)`
followed by the `.split(os.sep)` of `upload_directory`, on normalized absolute
paths given as segment lists.  `os.path.relpath` walks up from `start` with
`'..'` components past the shared prefix and then down into `path`; the `'.'`
it returns for `path = start` corresponds to the empty segment list here. -/
def relpathSegments (path start : List String) : List String :=
  let n := sharedLen path start
  List.replicate (start.length - n) ".." ++ path.drop n

/-- Is the event a folder-create call? -/
def Event.isCreate : Event → Bool
  | .createFolder .. => true
  | .uploadFile .. => false

/-- Is the event a file-upload call? -/
def Event.isUpload : Event → Bool
  | .createFolder .. => false
  | .uploadFile .. => true

/-- The parent id an event passed to the store. -/
def Event.parentOf : Event → Option FolderId
  | .createFolder _ p _ => p
  | .uploadFile _ p _ => p

/-- The event with the outcome of a file upload erased (folder creations are
kept whole, since they steer the control flow). -/
def Event.shape : Event → Event
  | .uploadFile p c _ => .uploadFile p c none
  | e => e

/-- Number of `createFolder` calls in a trace. -/
def countCreates (evs : List Event) : Nat :=
  evs.countP (fun e => e.isCreate)

/-- Number of directories of the tree excluding the mirror root itself (one
walk entry per directory, the root being the first). -/
def dirCount (t : FSTree) : Nat :=
  (walkEntries t).length - 1

/-- Sum over the walk entries of the depth (relative-path length) of each
visited directory. -/
def sumDepths (entries : List (List String × List String)) : Nat :=
  (entries.map (fun e => e.1.length)).sum

/-- The successful folder-creation events for a segment chain starting at
parent `par`, where `ids` are the ids returned segment by segment: each
segment is created under the id returned for the previous one. -/
def chainEvents : Option FolderId → List String → List FolderId → List Event
  | _, [], _ => []
  | _, _ :: _, [] => []
  | par, s :: rest, i :: is =>
      Event.createFolder s par (some i) :: chainEvents (some i) rest is

/-- The id resolved by a chain: the last created id, or the start parent for
an empty chain. -/
def chainEnd (par : Option FolderId) : List FolderId → Option FolderId
  | [] => par
  | i :: is => chainEnd (some i) is

/- Concrete instances used by counterexamples and witnesses. -/

/-- Oracle on which every remote call succeeds. -/
def allOk : Env := ⟨fun _ => true, fun _ => true⟩

/-- Oracle on which every folder creation fails (uploads would succeed). -/
def noCreate : Env := ⟨fun _ => false, fun _ => true⟩

/-- Oracle on which every folder creation succeeds and every upload fails. -/
def noUpload : Env := ⟨fun _ => true, fun _ => false⟩

/-- The caller-supplied remote parent `P`. -/
def pId : FolderId := FolderId.given "P"

/-- Local tree `root/a/b/` : nested empty directories. -/
def tNested : FSTree := .node "root" [] [.node "a" [] [.node "b" [] []]]

/-- Local tree `root/{d1/, d2/x.txt}` : two sibling directories, the second
holding a file. -/
def tSiblings : FSTree := .node "root" [] [.node "d1" [] [], .node "d2" ["x.txt"] []]

/-- Local tree `root/{a.txt, sub/b.txt}` of the spec's scenario. -/
def tScenario : FSTree := .node "root" ["a.txt"] [.node "sub" ["b.txt"] []]

/-- Local tree `root/{f1.txt, f2.txt}` : two files at the root. -/
def tTwoFiles : FSTree := .node "root" ["f1.txt", "f2.txt"] []

/-- Did the event's remote call raise (a folder creation that returned no id)? -/
def Event.isFailedCreate : Event → Bool
  | .createFolder _ _ none => true
  | _ => false

/- Helper lemmas. -/

theorem split_of_append_eq {α : Type} :
    ∀ (a b pre suf : List α) (x : α), a ++ b = pre ++ x :: suf →
      (∃ s, a = pre ++ x :: s ∧ suf = s ++ b) ∨
      (∃ p, pre = a ++ p ∧ b = p ++ x :: suf) := by
  intro a
  induction a with
  | nil =>
    intro b pre suf x h
    exact Or.inr ⟨pre, rfl, h⟩
  | cons y a ih =>
    intro b pre suf x h
    cases pre with
    | nil =>
      simp only [List.nil_append, List.cons_append, List.cons.injEq] at h
      exact Or.inl ⟨a, by simp [h.1], h.2.symm⟩
    | cons z pre =>
      simp only [List.cons_append, List.cons.injEq] at h
      rcases ih b pre suf x h.2 with ⟨s, hs1, hs2⟩ | ⟨p, hp1, hp2⟩
      · exact Or.inl ⟨s, by simp [h.1, hs1], hs2⟩
      · exact Or.inr ⟨p, by simp [h.1, hp1], hp2⟩

theorem chainEvents_mem :
    ∀ (segs : List String) (par : Option FolderId) (ids : List FolderId)
      (e : Event), e ∈ chainEvents par segs ids →
      ∃ n p i, e = Event.createFolder n p (some i) := by
  intro segs
  induction segs with
  | nil => intro par ids e h; simp [chainEvents] at h
  | cons s rest ih =>
    intro par ids e h
    cases ids with
    | nil => simp [chainEvents] at h
    | cons i is =>
      simp only [chainEvents, List.mem_cons] at h
      rcases h with h | h
      · exact ⟨s, par, i, h⟩
      · exact ih (some i) is e h

theorem resolve_ok_chain (env : Env) :
    ∀ (segs : List String) (k : Nat) (cur cur' : Option FolderId),
      (resolve env k cur segs).2.1 = some cur' →
      ∃ ids, ids.length = segs.length ∧
        (resolve env k cur segs).2.2 = chainEvents cur segs ids ∧
        cur' = chainEnd cur ids := by
  intro segs
  induction segs with
  | nil =>
    intro k cur cur' h
    simp only [resolve, Option.some.injEq] at h
    exact ⟨[], rfl, rfl, by simp [chainEnd, h]⟩
  | cons s rest ih =>
    intro k cur cur' h
    cases hc : create_folder env k s cur with
    | none => simp [resolve, hc] at h
    | some fid =>
      simp only [resolve, hc] at h ⊢
      rcases ih (k + 1) (some fid) cur' h with ⟨ids, hl, he, hd⟩
      exact ⟨fid :: ids, by simp [hl], by simp [chainEvents, he], by simpa [chainEnd] using hd⟩

theorem resolve_events_create (env : Env) :
    ∀ (segs : List String) (k : Nat) (cur : Option FolderId) (e : Event),
      e ∈ (resolve env k cur segs).2.2 → e.isCreate = true := by
  intro segs
  induction segs with
  | nil => intro k cur e h; simp [resolve] at h
  | cons s rest ih =>
    intro k cur e h
    cases hc : create_folder env k s cur with
    | none =>
      simp only [resolve, hc, List.mem_singleton] at h
      simp [h, Event.isCreate]
    | some fid =>
      simp only [resolve, hc, List.mem_cons] at h
      rcases h with h | h
      · simp [h, Event.isCreate]
      · exact ih (k + 1) (some fid) e h

theorem resolve_fail_split (env : Env) :
    ∀ (segs : List String) (k : Nat) (cur : Option FolderId),
      (resolve env k cur segs).2.1 = none →
      ∃ evs0 n p, (resolve env k cur segs).2.2 = evs0 ++ [Event.createFolder n p none] ∧
        ∀ e ∈ evs0, e.isFailedCreate = false := by
  intro segs
  induction segs with
  | nil => intro k cur h; simp [resolve] at h
  | cons s rest ih =>
    intro k cur h
    cases hc : create_folder env k s cur with
    | none =>
      refine ⟨[], s, cur, ?_, by simp⟩
      simp [resolve, hc]
    | some fid =>
      simp only [resolve, hc] at h ⊢
      rcases ih (k + 1) (some fid) h with ⟨evs0, n, p, he, hall⟩
      refine ⟨Event.createFolder s cur (some fid) :: evs0, n, p, by simp [he], ?_⟩
      intro e hmem
      rcases List.mem_cons.mp hmem with h1 | h1
      · simp [h1, Event.isFailedCreate]
      · exact hall e h1

theorem uploadFiles_fst (env : Env) :
    ∀ (files : List String) (j : Nat) (cur : Option FolderId) (rel : List String),
      (uploadFiles env j cur rel files).1 = j + files.length := by
  intro files
  induction files with
  | nil => intro j cur rel; simp [uploadFiles]
  | cons f rest ih =>
    intro j cur rel
    simp only [uploadFiles, ih (j + 1) cur rel, List.length_cons]
    omega

theorem uploadFiles_mem (env : Env) :
    ∀ (files : List String) (j : Nat) (cur : Option FolderId) (rel : List String)
      (e : Event), e ∈ (uploadFiles env j cur rel files).2 →
      ∃ f r, f ∈ files ∧ e = Event.uploadFile (rel ++ [f]) cur r := by
  intro files
  induction files with
  | nil => intro j cur rel e h; simp [uploadFiles] at h
  | cons f rest ih =>
    intro j cur rel e h
    simp only [uploadFiles, List.mem_cons] at h
    rcases h with h | h
    · exact ⟨f, upload_file env j (rel ++ [f]) cur, by simp, h⟩
    · rcases ih (j + 1) cur rel e h with ⟨f', r, hf, he⟩
      exact ⟨f', r, by simp [hf], he⟩

theorem countCreates_append (a b : List Event) :
    countCreates (a ++ b) = countCreates a + countCreates b := by
  simp [countCreates, List.countP_append]

theorem uploadFiles_countCreates (env : Env) (files : List String) (j : Nat)
    (cur : Option FolderId) (rel : List String) :
    countCreates (uploadFiles env j cur rel files).2 = 0 := by
  rw [countCreates, List.countP_eq_zero]
  intro e he
  rcases uploadFiles_mem env files j cur rel e he with ⟨f, r, _, rfl⟩
  simp [Event.isCreate]

theorem create_folder_ok (env : Env) (k : Nat) (name : String)
    (cur : Option FolderId) (h : env.createOk k = true) :
    create_folder env k name cur = some (FolderId.fresh k) := by
  simp [create_folder, driveCreateFolder, h]

theorem resolve_allOk (env : Env) (h : ∀ n, env.createOk n = true) :
    ∀ (segs : List String) (k : Nat) (cur : Option FolderId),
      (∃ cur', (resolve env k cur segs).2.1 = some cur') ∧
      countCreates (resolve env k cur segs).2.2 = segs.length := by
  intro segs
  induction segs with
  | nil => intro k cur; simp [resolve, countCreates]
  | cons s rest ih =>
    intro k cur
    rw [resolve, create_folder_ok env k s cur (h k)]
    rcases ih (k + 1) (some (FolderId.fresh k)) with ⟨⟨cur', hc⟩, hcount⟩
    refine ⟨⟨cur', by simpa using hc⟩, ?_⟩
    simp only [countCreates, List.countP_cons, Event.isCreate] at hcount ⊢
    simpa [countCreates] using hcount

theorem uploadFiles_not_failed (env : Env) (files : List String) (j : Nat)
    (cur : Option FolderId) (rel : List String) (e : Event)
    (h : e ∈ (uploadFiles env j cur rel files).2) : e.isFailedCreate = false := by
  rcases uploadFiles_mem env files j cur rel e h with ⟨f, r, _, rfl⟩
  simp [Event.isFailedCreate]

theorem resolve_ok_not_failed (env : Env) (segs : List String) (k : Nat)
    (cur cur' : Option FolderId) (h : (resolve env k cur segs).2.1 = some cur')
    (e : Event) (he : e ∈ (resolve env k cur segs).2.2) :
    e.isFailedCreate = false := by
  rcases resolve_ok_chain env segs k cur cur' h with ⟨ids, _, heq, _⟩
  rw [heq] at he
  rcases chainEvents_mem segs cur ids e he with ⟨n, p, i, rfl⟩
  simp [Event.isFailedCreate]

theorem runEntries_failed_last (env : Env) :
    ∀ (entries : List (List String × List String)) (k j : Nat)
      (par : Option FolderId) (pre suf : List Event) (ev : Event),
      runEntries env k j par entries = pre ++ ev :: suf →
      ev.isFailedCreate = true → suf = [] := by
  intro entries
  induction entries with
  | nil =>
    intro k j par pre suf ev h _
    cases pre <;> simp [runEntries] at h
  | cons entry rest ih =>
    intro k j par pre suf ev h hev
    obtain ⟨rel, files⟩ := entry
    by_cases hrel : rel = []
    · subst hrel
      simp only [runEntries, eq_self_iff_true, if_true] at h
      rcases split_of_append_eq _ _ _ _ _ h with ⟨s, h1, _⟩ | ⟨p, _, hp2⟩
      · have : ev ∈ (uploadFiles env j par [] files).2 := by rw [h1]; simp
        rw [uploadFiles_not_failed env files j par [] ev this] at hev
        exact absurd hev (by simp)
      · exact ih _ _ par p suf ev hp2 hev
    · cases hr : (resolve env k par rel).2.1 with
      | none =>
        simp only [runEntries, if_neg hrel, hr] at h
        rcases resolve_fail_split env rel k par hr with ⟨evs0, n, p0, heq, hall⟩
        rw [heq] at h
        rcases split_of_append_eq _ _ _ _ _ h with ⟨s, h1, _⟩ | ⟨p, _, hp2⟩
        · have : ev ∈ evs0 := by rw [h1]; simp
          rw [hall ev this] at hev
          exact absurd hev (by simp)
        · cases p with
          | nil => simpa using (List.cons.inj (by simpa using hp2)).2.symm
          | cons x xs => simp [List.cons_append] at hp2
      | some cur =>
        simp only [runEntries, if_neg hrel, hr] at h
        rw [List.append_assoc] at h
        rcases split_of_append_eq _ _ _ _ _ h with ⟨s, h1, _⟩ | ⟨p, _, hp2⟩
        · have : ev ∈ (resolve env k par rel).2.2 := by rw [h1]; simp
          rw [resolve_ok_not_failed env rel k par cur hr ev this] at hev
          exact absurd hev (by simp)
        · rcases split_of_append_eq _ _ _ _ _ hp2 with ⟨s2, h21, _⟩ | ⟨p2, _, hq2⟩
          · have : ev ∈ (uploadFiles env j cur rel files).2 := by rw [h21]; simp
            rw [uploadFiles_not_failed env files j cur rel ev this] at hev
            exact absurd hev (by simp)
          · exact ih _ _ par p2 suf ev hq2 hev

theorem runEntries_upload_chain (env : Env) :
    ∀ (entries : List (List String × List String)) (k j : Nat)
      (par : Option FolderId) (pre suf : List Event) (path : List String)
      (cur : Option FolderId) (res : Option Nat),
      runEntries env k j par entries = pre ++ Event.uploadFile path cur res :: suf →
      ∃ rel f ids, path = rel ++ [f] ∧ ids.length = rel.length ∧
        List.Sublist (chainEvents par rel ids) pre ∧ cur = chainEnd par ids := by
  intro entries
  induction entries with
  | nil =>
    intro k j par pre suf path cur res h
    cases pre <;> simp [runEntries] at h
  | cons entry rest ih =>
    intro k j par pre suf path cur res h
    obtain ⟨rel0, files⟩ := entry
    by_cases hrel : rel0 = []
    · subst hrel
      simp only [runEntries, eq_self_iff_true, if_true] at h
      rcases split_of_append_eq _ _ _ _ _ h with ⟨s, h1, _⟩ | ⟨p, hp1, hp2⟩
      · have hm : Event.uploadFile path cur res ∈ (uploadFiles env j par [] files).2 := by
          rw [h1]; simp
        rcases uploadFiles_mem env files j par [] _ hm with ⟨f, r, _, heq⟩
        rcases Event.uploadFile.inj heq with ⟨hpath, hcur, _⟩
        exact ⟨[], f, [], by simpa using hpath, rfl,
          by simp [chainEvents],
          by simpa [chainEnd] using hcur⟩
      · rcases ih _ _ par p suf path cur res hp2 with ⟨rel, f, ids, h1, h2, h3, h4⟩
        exact ⟨rel, f, ids, h1, h2, hp1 ▸ h3.trans (List.sublist_append_right _ _), h4⟩
    · cases hr : (resolve env k par rel0).2.1 with
      | none =>
        simp only [runEntries, if_neg hrel, hr] at h
        have hm : Event.uploadFile path cur res ∈ (resolve env k par rel0).2.2 := by
          rw [h]; simp
        have := resolve_events_create env rel0 k par _ hm
        simp [Event.isCreate] at this
      | some cur0 =>
        simp only [runEntries, if_neg hrel, hr] at h
        rw [List.append_assoc] at h
        rcases split_of_append_eq _ _ _ _ _ h with ⟨s, h1, _⟩ | ⟨p, hp1, hp2⟩
        · have hm : Event.uploadFile path cur res ∈ (resolve env k par rel0).2.2 := by
            rw [h1]; simp
          have := resolve_events_create env rel0 k par _ hm
          simp [Event.isCreate] at this
        · rcases split_of_append_eq _ _ _ _ _ hp2 with ⟨s2, h21, _⟩ | ⟨p2, hq1, hq2⟩
          · have hm : Event.uploadFile path cur res ∈ (uploadFiles env j cur0 rel0 files).2 := by
              rw [h21]; simp
            rcases uploadFiles_mem env files j cur0 rel0 _ hm with ⟨f, r, _, heq⟩
            rcases Event.uploadFile.inj heq with ⟨hpath, hcur, _⟩
            rcases resolve_ok_chain env rel0 k par cur0 hr with ⟨ids, hl, hevs, hend⟩
            refine ⟨rel0, f, ids, hpath, hl, ?_, by rw [hcur, hend]⟩
            rw [hp1, ← hevs]
            exact List.sublist_append_left _ _
          · rcases ih _ _ par p2 suf path cur res hq2 with ⟨rel, f, ids, h1, h2, h3, h4⟩
            refine ⟨rel, f, ids, h1, h2, ?_, h4⟩
            rw [hp1, hq1]
            exact h3.trans ((List.sublist_append_right _ _).trans
              (List.sublist_append_right _ _))

theorem runEntries_count (env : Env) (h : ∀ n, env.createOk n = true) :
    ∀ (entries : List (List String × List String)) (k j : Nat)
      (par : Option FolderId),
      countCreates (runEntries env k j par entries) = sumDepths entries := by
  intro entries
  induction entries with
  | nil => intro k j par; simp [runEntries, countCreates, sumDepths]
  | cons entry rest ih =>
    intro k j par
    obtain ⟨rel, files⟩ := entry
    by_cases hrel : rel = []
    · subst hrel
      simp only [runEntries, eq_self_iff_true, if_true]
      rw [countCreates_append, uploadFiles_countCreates, ih]
      simp [sumDepths]
    · rcases resolve_allOk env h rel k par with ⟨⟨cur', hc⟩, hcount⟩
      simp only [runEntries, if_neg hrel, hc, countCreates_append,
        uploadFiles_countCreates, ih, hcount]
      simp [sumDepths]

theorem uploadFiles_length (env : Env) :
    ∀ (files : List String) (j : Nat) (cur : Option FolderId) (rel : List String),
      ((uploadFiles env j cur rel files).2).length = files.length := by
  intro files
  induction files with
  | nil => intro j cur rel; simp [uploadFiles]
  | cons f rest ih => intro j cur rel; simp [uploadFiles, ih]

theorem create_folder_congr (e1 e2 : Env) (h : e1.createOk = e2.createOk)
    (k : Nat) (name : String) (cur : Option FolderId) :
    create_folder e1 k name cur = create_folder e2 k name cur := by
  simp [create_folder, driveCreateFolder, h]

theorem resolve_congr (e1 e2 : Env) (h : e1.createOk = e2.createOk) :
    ∀ (segs : List String) (k : Nat) (cur : Option FolderId),
      resolve e1 k cur segs = resolve e2 k cur segs := by
  intro segs
  induction segs with
  | nil => intro k cur; simp [resolve]
  | cons s rest ih =>
    intro k cur
    rw [resolve, resolve, create_folder_congr e1 e2 h]
    cases create_folder e2 k s cur with
    | none => rfl
    | some fid => simp [ih]

theorem uploadFiles_shape (e1 e2 : Env) :
    ∀ (files : List String) (j1 j2 : Nat) (cur : Option FolderId)
      (rel : List String),
      ((uploadFiles e1 j1 cur rel files).2).map Event.shape =
      ((uploadFiles e2 j2 cur rel files).2).map Event.shape := by
  intro files
  induction files with
  | nil => intro j1 j2 cur rel; simp [uploadFiles]
  | cons f rest ih =>
    intro j1 j2 cur rel
    simp [uploadFiles, Event.shape, ih (j1 + 1) (j2 + 1)]

theorem runEntries_shape (e1 e2 : Env) (h : e1.createOk = e2.createOk) :
    ∀ (entries : List (List String × List String)) (k j1 j2 : Nat)
      (par : Option FolderId),
      (runEntries e1 k j1 par entries).map Event.shape =
      (runEntries e2 k j2 par entries).map Event.shape := by
  intro entries
  induction entries with
  | nil => intro k j1 j2 par; simp [runEntries]
  | cons entry rest ih =>
    intro k j1 j2 par
    obtain ⟨rel, files⟩ := entry
    by_cases hrel : rel = []
    · subst hrel
      simp only [runEntries, eq_self_iff_true, if_true, List.map_append]
      rw [uploadFiles_shape e1 e2 files j1 j2 par [], ih]
    · simp only [runEntries, if_neg hrel, resolve_congr e1 e2 h rel k par]
      cases (resolve e2 k par rel).2.1 with
      | none => rfl
      | some cur =>
        simp only [List.append_assoc, List.map_append]
        rw [uploadFiles_shape e1 e2 files j1 j2 cur rel, ih]

theorem sharedLen_le :
    ∀ (path start : List String), sharedLen path start ≤ start.length := by
  intro path
  induction path with
  | nil => intro start; cases start <;> simp [sharedLen]
  | cons a as ih =>
    intro start
    cases start with
    | nil => simp [sharedLen]
    | cons b bs =>
      by_cases hab : a = b
      · simpa [sharedLen, hab] using ih bs
      · simp [sharedLen, hab]

theorem sharedLen_full :
    ∀ (start path : List String), sharedLen path start = start.length →
      path.take start.length = start := by
  intro start
  induction start with
  | nil => intro path _; simp
  | cons b bs ih =>
    intro path h
    cases path with
    | nil => simp [sharedLen] at h
    | cons a as =>
      by_cases hab : a = b
      · simp only [sharedLen, if_pos hab, List.length_cons, Nat.add_right_cancel_iff] at h
        simp [List.take_cons, hab, ih as h]
      · simp [sharedLen, hab] at h

/- Claim theorems. -/

/-- Claim C1 (code bug witness): mirroring the local tree `root/a/b/` (nested
empty directories) under remote parent `P` with every remote call succeeding
issues TWO `createFolder("a", P)` calls, returning two distinct remote
folders for the single local subdirectory `a`, and creates `b` under the
second of them — while the files of `a` itself would be parented under the
first.  The local subdirectory `a` therefore corresponds to two remote
folders, refuting "each local subdirectory corresponds to exactly one remote
folder": the walk re-creates the full ancestor chain afresh for every visited
directory instead of reusing the folder id already created for the parent. -/
theorem C1_duplicateChain_trace :
    upload_directory allOk tNested (some pId) =
      [Event.createFolder "a" (some pId) (some (FolderId.fresh 0)),
       Event.createFolder "a" (some pId) (some (FolderId.fresh 1)),
       Event.createFolder "b" (some (FolderId.fresh 1)) (some (FolderId.fresh 2))] := rfl

/-- Claim C2 (code bug witness): for the local tree `root/{d1/, d2/x.txt}`
with every folder creation failing, the trace is the single failed
`createFolder("d1", P)` call — `x.txt`, which lies in the sibling directory
`d2` outside `d1`'s subtree, is never uploaded, because `upload_directory`
executes `return` on a folder-creation failure and aborts the entire walk
(contradicting its own "Skipping..." diagnostic and the claim). -/
theorem C2_abortsWholeWalk_trace :
    upload_directory noCreate tSiblings (some pId) =
      [Event.createFolder "d1" (some pId) none] := rfl

/-- Claim C3 (counterexample): for the all-empty-directory tree `root/a/b/`
with every `createFolder` call succeeding, the mirror issues 3 folder-create
calls although the tree has only 2 directories besides the mirror root: each
visited directory re-creates its whole ancestor chain. -/
theorem C3_counterexample :
    countCreates (upload_directory allOk tNested (some pId)) ≠ dirCount tNested ∧
    countCreates (upload_directory allOk tNested (some pId)) = 3 ∧
    dirCount tNested = 2 := by
  refine ⟨?_, rfl, rfl⟩
  decide

/-- Claim C3 (amended): for every tree and every oracle on which all folder
creations succeed, the number of `createFolder` calls equals the SUM OF THE
DEPTHS of the visited directories (the relative-path length of each walk
entry; the mirror root contributes 0), not the number of directories: the
full ancestor chain is re-created for every visited directory. -/
theorem C3_amended_createCalls_eq_sumDepths (env : Env)
    (h : ∀ n, env.createOk n = true) (t : FSTree) (par : Option FolderId) :
    countCreates (upload_directory env t par) = sumDepths (walkEntries t) := by
  simpa [upload_directory] using runEntries_count env h (walkEntries t) 0 0 par

/-- Witness for the amended Claim C3 at the concrete tree `root/a/b/`:
depths 0 + 1 + 2 = 3 folder-create calls. -/
theorem C3_amended_witness :
    countCreates (upload_directory allOk tNested (some pId)) =
      sumDepths (walkEntries tNested) ∧
    sumDepths (walkEntries tNested) = 3 :=
  ⟨C3_amended_createCalls_eq_sumDepths allOk (fun _ => rfl) tNested (some pId), rfl⟩

/-- Claim C4: wherever an `uploadFile` call appears in the trace of a mirror
run, the events BEFORE it contain, in ancestor-before-descendant order, a
successful `createFolder` call for every ancestor segment of the file's
directory, each parented on the id returned for the previous segment and
starting from the caller-supplied parent; the file's own parent id is the id
the deepest segment returned (the caller-supplied parent itself for a file of
the mirror root, whose chain is empty). -/
theorem C4_upload_preceded_by_chain (env : Env) (t : FSTree)
    (par : Option FolderId) (pre suf : List Event) (path : List String)
    (cur : Option FolderId) (res : Option Nat)
    (h : upload_directory env t par = pre ++ Event.uploadFile path cur res :: suf) :
    ∃ rel f ids, path = rel ++ [f] ∧ ids.length = rel.length ∧
      List.Sublist (chainEvents par rel ids) pre ∧ cur = chainEnd par ids :=
  runEntries_upload_chain env (walkEntries t) 0 0 par pre suf path cur res
    (by simpa [upload_directory] using h)

/-- Witness for Claim C4: in the run over `root/{a.txt, sub/b.txt}`, the
upload of `sub/b.txt` is preceded by the successful `createFolder("sub", P)`
whose returned id is the upload's parent. -/
theorem C4_witness :
    ∃ rel f ids, (["sub", "b.txt"] : List String) = rel ++ [f] ∧
      ids.length = rel.length ∧
      List.Sublist (chainEvents (some pId) rel ids)
        [Event.uploadFile ["a.txt"] (some pId) (some 0),
         Event.createFolder "sub" (some pId) (some (FolderId.fresh 0))] ∧
      (some (FolderId.fresh 0) : Option FolderId) = chainEnd (some pId) ids :=
  C4_upload_preceded_by_chain allOk tScenario (some pId)
    [Event.uploadFile ["a.txt"] (some pId) (some 0),
     Event.createFolder "sub" (some pId) (some (FolderId.fresh 0))]
    [] ["sub", "b.txt"] (some (FolderId.fresh 0)) (some 1) rfl

/-- Claim C5: whenever a segment's `createFolder` fails (returns no id), that
event is the LAST event of the trace: no file of the directory being
resolved, and none under its descendants, is uploaded afterwards, and the
walk of that subtree stops (the run issues no further remote call at all).
Together with C4's chain property this gives: a directory's files are
uploaded only after its full resolution chain resolved successfully. -/
theorem C5_failed_create_stops_uploads (env : Env) (t : FSTree)
    (par : Option FolderId) (pre suf : List Event) (ev : Event)
    (h : upload_directory env t par = pre ++ ev :: suf)
    (hev : ev.isFailedCreate = true) : suf = [] :=
  runEntries_failed_last env (walkEntries t) 0 0 par pre suf ev
    (by simpa [upload_directory] using h) hev

/-- Witness for Claim C5 at the run of `root/{d1/, d2/x.txt}` with folder
creation failing: nothing follows the failed `createFolder("d1", P)`. -/
theorem C5_witness : ([] : List Event) = [] :=
  C5_failed_create_stops_uploads noCreate tSiblings (some pId) []
    [] (Event.createFolder "d1" (some pId) none) rfl rfl

/-- Claim C6: for any local tree, the mirror run's trace starts with exactly
one upload event per file of the mirror root, each parented directly on the
caller-supplied `parent_folder_id` — no folder is created for the root
itself before (or among) them: the root's empty relative path skips
resolution and the top parent id is used unchanged. -/
theorem C6_root_uses_topParent (env : Env) (n : String) (fs : List String)
    (subs : List FSTree) (par : Option FolderId) :
    ∃ rest, upload_directory env (FSTree.node n fs subs) par =
        (uploadFiles env 0 par [] fs).2 ++ rest ∧
      ((uploadFiles env 0 par [] fs).2).length = fs.length ∧
      ∀ e ∈ (uploadFiles env 0 par [] fs).2,
        e.isCreate = false ∧ e.parentOf = par := by
  refine ⟨runEntries env 0 (uploadFiles env 0 par [] fs).1 par (walkForest [] subs),
    rfl, uploadFiles_length env fs 0 par [], ?_⟩
  intro e he
  rcases uploadFiles_mem env fs 0 par [] e he with ⟨f, r, _, rfl⟩
  simp [Event.isCreate, Event.parentOf]

/-- Claim C7: the outcome of file uploads never influences which remote calls
are made.  Two oracles that agree on folder creations but may fail different
(or all) uploads yield traces that are identical once each upload's own
result is erased: a failed upload neither stops the remaining files of the
same directory from being attempted nor alters the rest of the walk. -/
theorem C7_upload_failures_isolated (e1 e2 : Env)
    (h : e1.createOk = e2.createOk) (t : FSTree) (par : Option FolderId) :
    (upload_directory e1 t par).map Event.shape =
    (upload_directory e2 t par).map Event.shape := by
  simpa [upload_directory] using
    runEntries_shape e1 e2 h (walkEntries t) 0 0 0 par

/-- Witness for Claim C7: `root/{f1.txt, f2.txt}` mirrored once with all
uploads succeeding and once with all uploads failing issues the same calls. -/
theorem C7_witness :
    (upload_directory allOk tTwoFiles (some pId)).map Event.shape =
    (upload_directory noUpload tTwoFiles (some pId)).map Event.shape :=
  C7_upload_failures_isolated allOk noUpload rfl tTwoFiles (some pId)

/-- Claim C8 (counterexample): visiting the directory `/x` under the mirror
root `/r` — not a descendant of the root — does NOT make the Path Decomposer
fail: `os.path.relpath` has no such failure mode and simply returns the
`'..'`-climbing relative path, here the segment list `["..", "x"]`. -/
theorem C8_counterexample : relpathSegments ["x"] ["r"] = ["..", "x"] := rfl

/-- Claim C8 (amended): the Path Decomposer is a pure total function with NO
failure modes at all: when the visited directory is not a descendant of the
mirror root it does not fail with `InvalidPath` but yields a segment sequence
containing `'..'` parent references. -/
theorem C8_amended_no_failure (path start : List String)
    (h : path.take start.length ≠ start) :
    ".." ∈ relpathSegments path start := by
  have hle := sharedLen_le path start
  have hlt : sharedLen path start < start.length :=
    lt_of_le_of_ne hle (fun he => h (sharedLen_full start path he))
  apply List.mem_append_left
  rw [List.mem_replicate]
  exact ⟨by omega, rfl⟩

/-- Witness for the amended Claim C8 at the non-descendant pair `/x`, `/r`. -/
theorem C8_amended_witness : ".." ∈ relpathSegments ["x"] ["r"] :=
  C8_amended_no_failure ["x"] ["r"] (by decide)

/-- Claim C9: mirroring `root/{a.txt, sub/b.txt}` under remote parent `P`
with every call succeeding issues exactly `uploadFile("a.txt", P)`,
`createFolder("sub", P)` returning the fresh folder `F1`, and
`uploadFile("sub/b.txt", F1)` — one folder creation and nothing else. -/
theorem C9_scenario_trace :
    upload_directory allOk tScenario (some pId) =
      [Event.uploadFile ["a.txt"] (some pId) (some 0),
       Event.createFolder "sub" (some pId) (some (FolderId.fresh 0)),
       Event.uploadFile ["sub", "b.txt"] (some (FolderId.fresh 0)) (some 1)] := rfl

/-- Claim C10: `create_folder` and `upload_file` are total wrappers around
the raising store calls: each returns `None` exactly when the underlying
call raised, and the created object's id exactly when it returned one — the
caller observes a failure only as a `None` result, never as an exception. -/
theorem C10_wrappers_catch_exceptions (env : Env) (k j : Nat) (name : String)
    (path : List String) (parent parent2 : Option FolderId) :
    (create_folder env k name parent = none ↔
      ∃ msg, driveCreateFolder env k name parent = Except.error msg) ∧
    (∀ i, create_folder env k name parent = some i ↔
      driveCreateFolder env k name parent = Except.ok i) ∧
    (upload_file env j path parent2 = none ↔
      ∃ msg, driveUploadFile env j path parent2 = Except.error msg) ∧
    (∀ i, upload_file env j path parent2 = some i ↔
      driveUploadFile env j path parent2 = Except.ok i) := by
  refine ⟨?_, ?_, ?_, ?_⟩ <;>
    first
    | (cases hc : env.createOk k <;>
        simp [create_folder, driveCreateFolder, hc])
    | (cases hu : env.uploadOk j <;>
        simp [upload_file, driveUploadFile, hu])
